import Mathlib

/-!
Verification development for the document-research repository's two core
subsystems: the structured-output recovery pipeline
(`app/backend/utils/json_control.py`, `app/backend/utils/response_format.py`)
and the MCP connection supervisor
(`app/backend/services_sk/graphrag_mcp_plugin.py`).

Python text is modelled as `List Char` (code points, matching Python `str`
indexing/slicing); `String` wrappers mirror the source signatures.  Python
exceptions are modelled with `Except`; a surrounding `try/except` becomes a
`match` on the `Except` value.  The regular expressions used by the source are
embedded by their leftmost-match backtracking semantics, specialised to the
concrete patterns appearing in the source; each definition's doc comment cites
the pattern it implements.  Character classes are modelled at their ASCII
meaning (all inputs considered here are ASCII).
-/

namespace DocResearch

/-- The literal brace characters, named to keep string literals readable. -/
def lbrace : Char := '\x7b'

def rbrace : Char := '\x7d'

/-- Python `str.strip()` / regex `\s` whitespace at its ASCII meaning:
space, tab, newline, carriage return, vertical tab, form feed. -/
def isPyWs (c : Char) : Bool :=
  c = ' ' || c = '\t' || c = '\n' || c = '\r' || c = '\x0b' || c = '\x0c'

/-- The whitespace skipped by Python's `json` decoder: `' \t\n\r'` only. -/
def isJsonWs (c : Char) : Bool :=
  c = ' ' || c = '\t' || c = '\n' || c = '\r'

/-- The character class `[-:\s|]` from the table regexes of
`json_control.py` (note that `\s` includes the newline). -/
def isSepClass (c : Char) : Bool :=
  c = '-' || c = ':' || isPyWs c || c = '|'

/-- The character class `[\n\r]`. -/
def isNlCr (c : Char) : Bool :=
  c = '\n' || c = '\r'

def isDigitChar (c : Char) : Bool :=
  48 ≤ c.toNat && c.toNat ≤ 57

/-- Python `str.split('\n')`: split on every newline, keeping empty pieces. -/
def splitNl (l : List Char) : List (List Char) :=
  l.foldr
    (fun c acc =>
      if c = '\n' then [] :: acc
      else
        match acc with
        | a :: as => (c :: a) :: as
        | [] => [[c]])
    [[]]

/-- Python `'\n'.join(...)`. -/
def joinNl : List (List Char) → List Char
  | [] => []
  | [l] => l
  | l :: ls => l ++ '\n' :: joinNl ls

/-- Python `str.strip()` on a character list (ASCII whitespace). -/
def pyStripL (l : List Char) : List Char :=
  ((l.dropWhile isPyWs).reverse.dropWhile isPyWs).reverse

/-- Python `str.strip()`. -/
def pyStrip (s : String) : String :=
  ⟨pyStripL s.data⟩

/-- Substring test: does `pat` occur contiguously inside `l`?  (Python `in`
on `str`, and the reachability of a literal inside a regex match.) -/
def isSubL (pat : List Char) : List Char → Bool
  | [] => pat.isEmpty
  | c :: rest => pat.isPrefixOf (c :: rest) || isSubL pat rest

/-- Length of the maximal prefix of `l` satisfying `p` (a greedy
character-class run in a regex). -/
def runLen (p : Char → Bool) (l : List Char) : Nat :=
  (l.takeWhile p).length

/-- Index of the first occurrence of `c` (Python `str.find`, `-1` as `none`). -/
def firstIdxOf (c : Char) (l : List Char) : Option Nat :=
  l.findIdx? (· = c)

/-- Index of the last occurrence of `c` (Python `str.rfind`, `-1` as `none`). -/
def lastIdxOf (c : Char) (l : List Char) : Option Nat :=
  (l.foldl (fun (st : Nat × Option Nat) x =>
    (st.1 + 1, if x = c then some st.1 else st.2)) (0, none)).2

/-- The largest `k` with `1 ≤ k ≤ m` satisfying `p`, searched downward:
the backtracking order of a greedy `+` quantifier. -/
def findLargestLe (p : Nat → Bool) : Nat → Option Nat
  | 0 => none
  | m + 1 => if p (m + 1) then some (m + 1) else findLargestLe p m

/-- JSON values as produced by Python `json.loads`: objects keep insertion
order with unique keys (later duplicates overwrite), numbers keep the integer
part plus the fraction/exponent lexeme (`""` for ints), and the `NaN` /
`Infinity` constants accepted by Python's decoder are explicit. -/
inductive JVal where
  | null
  | bool (b : Bool)
  | num (i : Int) (suffix : List Char)
  | str (s : List Char)
  | arr (xs : List JVal)
  | obj (kvs : List (List Char × JVal))
  | nan
  | inf (neg : Bool)

/-- Assoc-list lookup on an object's fields (keys are unique by parsing). -/
def lookupKey (k : List Char) : List (List Char × JVal) → Option JVal
  | [] => none
  | (k', v) :: rest => if k' = k then some v else lookupKey k rest

/-- Python `dict` insertion: an existing key keeps its position and gets the
new value; a fresh key is appended. -/
def insertKV (k : List Char) (v : JVal) : List (List Char × JVal) →
    List (List Char × JVal)
  | [] => [(k, v)]
  | (k', v') :: rest =>
    if k' = k then (k', v) :: rest else (k', v') :: insertKV k v rest

/-- Does a JSON object value carry the given key? (`False` on non-objects.) -/
def hasKey (j : JVal) (k : String) : Bool :=
  match j with
  | .obj kvs => (lookupKey k.data kvs).isSome
  | _ => false

/-- Field access on a JSON object value, `none` on non-objects. -/
def getField (j : JVal) (k : String) : Option JVal :=
  match j with
  | .obj kvs => lookupKey k.data kvs
  | _ => none

/-- Value of one hexadecimal digit of a `\uXXXX` escape. -/
def uEscVal (c : Char) : Option Nat :=
  let n := c.toNat
  if 48 ≤ n ∧ n ≤ 57 then some (n - 48)
  else if 97 ≤ n ∧ n ≤ 102 then some (n - 87)
  else if 65 ≤ n ∧ n ≤ 70 then some (n - 55)
  else none

/-- Body of a JSON string after the opening quote, per Python's strict
decoder: closing on `"`, the standard escapes, `\uXXXX` (a lone surrogate
degenerates to `\0`, a divergence irrelevant to ASCII inputs), and rejection
of raw control characters below `0x20`. Returns the decoded content and the
rest after the closing quote. -/
def parseStringBody : List Char → Except String (List Char × List Char)
  | [] => .error "Unterminated string"
  | c :: rest =>
    if c = '"' then .ok ([], rest)
    else if c = '\\' then
      match rest with
      | [] => .error "Unterminated string"
      | e :: rest2 =>
        if e = 'u' then
          match rest2 with
          | h1 :: h2 :: h3 :: h4 :: rest3 =>
            match [h1, h2, h3, h4].mapM uEscVal with
            | some vs =>
              (fun r => (Char.ofNat (vs.foldl (fun acc v => 16 * acc + v) 0) :: r.1, r.2))
                <$> parseStringBody rest3
            | none => .error "Invalid \\uXXXX escape"
          | _ => .error "Invalid \\uXXXX escape"
        else
          match (if e = '"' then some '"'
                 else if e = '\\' then some '\\'
                 else if e = '/' then some '/'
                 else if e = 'b' then some '\x08'
                 else if e = 'f' then some '\x0c'
                 else if e = 'n' then some '\n'
                 else if e = 'r' then some '\r'
                 else if e = 't' then some '\t'
                 else none) with
          | some d => (fun r => (d :: r.1, r.2)) <$> parseStringBody rest2
          | none => .error "Invalid escape"
    else if c.toNat < 0x20 then .error "Invalid control character"
    else (fun r => (c :: r.1, r.2)) <$> parseStringBody rest

def digitsToNat (ds : List Char) : Nat :=
  ds.foldl (fun acc c => 10 * acc + (c.toNat - 48)) 0

/-- A JSON number per Python's `NUMBER_RE`:
`-?(0|[1-9]\d*)(\.\d+)?([eE][-+]?\d+)?`.  Returns the value (integer part
plus fraction/exponent lexeme) and the rest. -/
def parseNumber (l : List Char) : Except String (JVal × List Char) :=
  let neg := l.headD ' ' == '-'
  let l1 := if neg then l.tail else l
  match l1 with
  | [] => .error "Expecting value"
  | c :: _ =>
    if ¬ isDigitChar c then .error "Expecting value"
    else
      let ds := l1.takeWhile isDigitChar
      let rest := l1.dropWhile isDigitChar
      -- leading zeros: the regex only accepts `0` alone or `[1-9]\d*`
      let ds := if c = '0' then ['0'] else ds
      let rest := if c = '0' then l1.drop 1 else rest
      let iv : Int := if neg then -(digitsToNat ds : Int) else (digitsToNat ds : Int)
      -- optional fraction
      let (frac, rest2) : List Char × List Char :=
        match rest with
        | '.' :: r =>
          let fd := r.takeWhile isDigitChar
          if fd.isEmpty then ([], rest) else ('.' :: fd, r.dropWhile isDigitChar)
        | _ => ([], rest)
      -- optional exponent
      let (expo, rest3) : List Char × List Char :=
        match rest2 with
        | e :: r =>
          if e = 'e' || e = 'E' then
            let (sgn, r2) : List Char × List Char :=
              match r with
              | s :: r' => if s = '+' || s = '-' then ([s], r') else ([], r)
              | [] => ([], r)
            let ed := r2.takeWhile isDigitChar
            if ed.isEmpty then ([], rest2)
            else (e :: (sgn ++ ed), r2.dropWhile isDigitChar)
          else ([], rest2)
        | [] => ([], rest2)
      .ok (.num iv (frac ++ expo), rest3)

/-- Skip JSON-decoder whitespace. -/
def skipWsL (l : List Char) : List Char :=
  l.dropWhile isJsonWs

/-- Duplicate-key handling for a reversed accumulator: the Python `dict`
keeps the first position and overwrites the value. -/
def pushKV (acc : List (List Char × JVal)) (k : List Char) (v : JVal) :
    List (List Char × JVal) :=
  (insertKV k v acc.reverse).reverse

mutual

/-- A JSON value per Python's strict decoder (`json.loads` machinery):
strings, numbers, `true`/`false`/`null`, the `NaN`/`Infinity`/`-Infinity`
constants, arrays, objects.  The fuel bounds nesting; every recursive call
consumes at least one character, so `length + 1` fuel is always enough. -/
def parseValue : Nat → List Char → Except String (JVal × List Char)
  | 0, _ => .error "out of fuel"
  | _ + 1, [] => .error "Expecting value"
  | fuel + 1, c :: rest =>
    if c = '"' then
      (fun r => (JVal.str r.1, r.2)) <$> parseStringBody rest
    else if c = lbrace then
      parseMembers fuel (skipWsL rest) [] true
    else if c = '[' then
      parseElems fuel (skipWsL rest) [] true
    else if ['t', 'r', 'u', 'e'].isPrefixOf (c :: rest) then
      .ok (.bool true, (c :: rest).drop 4)
    else if ['f', 'a', 'l', 's', 'e'].isPrefixOf (c :: rest) then
      .ok (.bool false, (c :: rest).drop 5)
    else if ['n', 'u', 'l', 'l'].isPrefixOf (c :: rest) then
      .ok (.null, (c :: rest).drop 4)
    else if ['N', 'a', 'N'].isPrefixOf (c :: rest) then
      .ok (.nan, (c :: rest).drop 3)
    else if ['I', 'n', 'f', 'i', 'n', 'i', 't', 'y'].isPrefixOf (c :: rest) then
      .ok (.inf false, (c :: rest).drop 8)
    else if ['-', 'I', 'n', 'f', 'i', 'n', 'i', 't', 'y'].isPrefixOf (c :: rest) then
      .ok (.inf true, (c :: rest).drop 9)
    else parseNumber (c :: rest)

/-- Object members after `{` (first : is this the first member?). -/
def parseMembers (fuel : Nat) (l : List Char)
    (acc : List (List Char × JVal)) (first : Bool) :
    Except String (JVal × List Char) :=
  match fuel with
  | 0 => .error "out of fuel"
  | fuel + 1 =>
    match l with
    | [] => .error "Expecting property name"
    | c :: rest =>
      if c = rbrace && first then .ok (.obj acc.reverse, rest)
      else if c = '"' then
        match parseStringBody rest with
        | .error e => .error e
        | .ok (key, rest2) =>
          match skipWsL rest2 with
          | ':' :: rest3 =>
            match parseValue fuel (skipWsL rest3) with
            | .error e => .error e
            | .ok (v, rest4) =>
              match skipWsL rest4 with
              | ',' :: rest5 => parseMembers fuel (skipWsL rest5) (pushKV acc key v) false
              | d :: rest5 =>
                if d = rbrace then .ok (.obj (pushKV acc key v).reverse, rest5)
                else .error "Expecting , delimiter"
              | [] => .error "Expecting , delimiter"
          | _ => .error "Expecting : delimiter"
      else .error "Expecting property name"

/-- Array elements after `[` . -/
def parseElems (fuel : Nat) (l : List Char) (acc : List JVal) (first : Bool) :
    Except String (JVal × List Char) :=
  match fuel with
  | 0 => .error "out of fuel"
  | fuel + 1 =>
    match l with
    | [] => .error "Expecting value"
    | c :: rest =>
      if c = ']' && first then .ok (.arr acc.reverse, rest)
      else
        match parseValue fuel (c :: rest) with
        | .error e => .error e
        | .ok (v, rest2) =>
          match skipWsL rest2 with
          | ',' :: rest3 => parseElems fuel (skipWsL rest3) (v :: acc) false
          | ']' :: rest3 => .ok (.arr (v :: acc).reverse, rest3)
          | _ => .error "Expecting , delimiter"

end

/-- Python `json.loads`: optional surrounding whitespace, one value,
an `Extra data` error if anything but whitespace follows. -/
def jsonLoads (s : String) : Except String JVal :=
  match parseValue (s.length + 1) (skipWsL s.data) with
  | .error e => .error e
  | .ok (v, rest) =>
    if (skipWsL rest).isEmpty then .ok v else .error "Extra data"

/-- Is an `Except` an error? -/
def isErr : Except String JVal → Bool
  | .error _ => true
  | .ok _ => false

/-! ## Markdown escape cleanup (`_clean_markdown_content`, lines 7-20) -/

/-- Python `str.replace('\\' + a, b)` for one two-character escape pattern:
leftmost, non-overlapping, replacing every occurrence. -/
def replEsc (a b : Char) : List Char → List Char
  | [] => []
  | [c] => [c]
  | c :: c2 :: rest =>
    if c = '\\' ∧ c2 = a then b :: replEsc a b rest
    else c :: replEsc a b (c2 :: rest)

/-- Does the two-character pattern backslash-`a` occur in `l`?  (Used to
state that a replacement pass leaves no occurrence behind.) -/
def hasPair (a : Char) : List Char → Bool
  | x :: y :: rest => (x == '\\' && y == a) || hasPair a (y :: rest)
  | _ => false

/-- Lines 16-18: replace literal `\n`, then `\t`, then `\r`. -/
def cleanMarkdownChars (l : List Char) : List Char :=
  replEsc 'r' '\r' (replEsc 't' '\t' (replEsc 'n' '\n' l))

/-- `_clean_markdown_content` (lines 7-20), with its empty-input guard. -/
def cleanMarkdownContent (s : String) : String :=
  if s = "" then s else ⟨cleanMarkdownChars s.data⟩

/-- `clean_markdown_escapes` (lines 188-201): the public wrapper. -/
def clean_markdown_escapes (s : String) : String :=
  cleanMarkdownContent s

/-! ## `ensure_table_spacing` (lines 203-247)

The pattern is `(\|[^\n]+\|(?:\n\|[-:\s|]+\|)?(?:\n\|[^\n]+\|)*)`.  After the
mandatory header everything is optional, so once the header matches nothing
can force backtracking across component boundaries; greedy choices are final.
-/

/-- Last index `j ≥ 1` holding `'|'` (the backtracked close of
`[^\n]+\|`: greedy, so the last pipe of the line is tried first and—nothing
after being able to fail—is kept). -/
def lastPipeGe1 (line : List Char) : Option Nat :=
  (line.foldl (fun (st : Nat × Option Nat) c =>
    (st.1 + 1, if c = '|' && st.1 != 0 then some st.1 else st.2)) (0, none)).2

/-- `\|[^\n]+\|` at the head of `u`; returns the consumed length. -/
def matchHeaderETS : List Char → Option Nat
  | '|' :: rest =>
    match lastPipeGe1 (rest.takeWhile (· ≠ '\n')) with
    | some j => some (j + 2)
    | none => none
  | _ => none

/-- `(?:\n\|[-:\s|]+\|)?`: greedy class run (which, `\s` including the
newline, may cross line boundaries) backtracked to the largest close pipe;
0 when the option matches empty. -/
def matchSepETS (u : List Char) : Nat :=
  match u with
  | '\n' :: '|' :: rest =>
    let m := runLen isSepClass rest
    match findLargestLe (fun k => rest.getD k ' ' = '|') m with
    | some k => k + 3
    | none => 0
  | _ => 0

/-- `(?:\n\|[^\n]+\|)*`: greedy data rows, each closing at the last pipe of
its line.  Fuel ≥ length always suffices. -/
def dataStarETS : Nat → List Char → Nat
  | 0, _ => 0
  | fuel + 1, '\n' :: '|' :: rest =>
    match lastPipeGe1 (rest.takeWhile (· ≠ '\n')) with
    | some j => (j + 3) + dataStarETS fuel (rest.drop (j + 1))
    | none => 0
  | _ + 1, _ => 0

/-- The whole `ensure_table_spacing` table pattern at the head of `u`. -/
def matchETSAt (u : List Char) : Option Nat :=
  match matchHeaderETS u with
  | none => none
  | some h =>
    let s := matchSepETS (u.drop h)
    let d := dataStarETS (u.length + 1) (u.drop (h + s))
    some (h + s + d)

/-- The `add_spacing` callback (lines 223-242): prepend a newline unless the
two characters before the match already end with a blank line; append one
unless the two characters after it already start with one.  Positions refer
to the original text, as in the source closure. -/
def addSpacing (orig : List Char) (start stop : Nat) (table : List Char) :
    List Char :=
  let t :=
    if 0 < start ∧
        ¬ (2 ≤ start ∧ orig.getD (start - 2) ' ' = '\n' ∧
           orig.getD (start - 1) ' ' = '\n')
    then '\n' :: table else table
  if stop < orig.length ∧
      ¬ (orig.getD stop ' ' = '\n' ∧ stop + 1 < orig.length ∧
         orig.getD (stop + 1) ' ' = '\n')
  then t ++ ['\n'] else t

/-- The `re.sub` scan (line 245): leftmost non-overlapping matches over the
original text, each replaced through `addSpacing`; other characters copied. -/
def etsScan (orig : List Char) : Nat → Nat → List Char → List Char
  | 0, _, u => u
  | _ + 1, _, [] => []
  | fuel + 1, i, c :: rest =>
    match matchETSAt (c :: rest) with
    | some len =>
      if len = 0 then c :: etsScan orig fuel (i + 1) rest -- unreachable: headers consume ≥ 3
      else
        addSpacing orig i (i + len) ((c :: rest).take len)
          ++ etsScan orig fuel (i + len) ((c :: rest).drop len)
    | none => c :: etsScan orig fuel (i + 1) rest

/-- `ensure_table_spacing` (lines 203-247), with its empty-input guard. -/
def ensure_table_spacing (markdown : String) : String :=
  if markdown = "" then markdown
  else ⟨etsScan markdown.data (markdown.data.length + 1) 0 markdown.data⟩

/-! ## `clean_duplicate_table_content` (lines 164-186)

Table pattern: `\|[^\n]+\|[\n\r]+\|[-:\s|]+\|[\n\r]+((?:\|[^\n]+\|[\n\r]+)+)`.
Here the parts after the separator are mandatory, so greedy choices *do*
backtrack: close-pipe candidates are retried largest-first until the rest of
the pattern matches.  A newline run is effectively maximal: a shorter run
leaves a `\n`/`\r` where the next component demands `\|`. -/

/-- Descending close-pipe candidates `j ≥ 1` within the current line
(the backtracking order of `[^\n]+\|`; `\r` does not end a line for `[^\n]`). -/
def pipeCandidatesDesc (l : List Char) : List Nat :=
  let line := l.takeWhile (· ≠ '\n')
  ((List.range line.length).filter (fun j => line.getD j ' ' = '|' && j != 0)).reverse

/-- First success of `f` along a candidate list. -/
def firstSome (f : Nat → Option Nat) : List Nat → Option Nat
  | [] => none
  | j :: rest =>
    match f j with
    | some r => some r
    | none => firstSome f rest

/-- Largest-first search over `k ∈ [1, m]` returning `f`'s first success. -/
def searchDown (f : Nat → Option Nat) : Nat → Option Nat
  | 0 => none
  | k + 1 =>
    match f (k + 1) with
    | some r => some r
    | none => searchDown f k

/-- One data row `\|[^\n]+\|[\n\r]+`: each close candidate needs at least one
following newline, consumed maximally.  Returns the consumed length. -/
def dataRowD (u : List Char) : Option Nat :=
  match u with
  | '|' :: rest =>
    firstSome (fun j =>
      let n := runLen isNlCr (rest.drop (j + 1))
      if n = 0 then none else some (1 + (j + 1) + n))
      (pipeCandidatesDesc rest)
  | _ => none

/-- Greedy repetition of data rows (nothing follows the group, so per-row
choices are final). -/
def dataStarD : Nat → List Char → Nat
  | 0, _ => 0
  | fuel + 1, u =>
    match dataRowD u with
    | some d => d + dataStarD fuel (u.drop d)
    | none => 0

/-- `((?:\|[^\n]+\|[\n\r]+)+)`: one mandatory data row, then the greedy rest. -/
def dataPlusD (u : List Char) : Option Nat :=
  match dataRowD u with
  | some d => some (d + dataStarD (u.length + 1) (u.drop d))
  | none => none

/-- Separator `\|[-:\s|]+\|[\n\r]+` followed by the mandatory data rows: the
greedy class run (crossing newlines, `\s` including `\n`) backtracks
largest-first until close pipe, newline run and data rows all match. -/
def sepThenDataD (u : List Char) : Option Nat :=
  match u with
  | '|' :: rest =>
    let m := runLen isSepClass rest
    searchDown (fun k =>
      if rest.getD k ' ' = '|' then
        let after := rest.drop (k + 1)
        let n := runLen isNlCr after
        if n = 0 then none
        else
          match dataPlusD (after.drop n) with
          | some d => some (1 + (k + 1) + n + d)
          | none => none
      else none) m
  | _ => none

/-- The whole table pattern at the head of `u`: header close candidates
largest-first, each followed by a maximal newline run, the separator and the
data rows.  Returns the length of the match (group 0). -/
def matchDupAt (u : List Char) : Option Nat :=
  match u with
  | '|' :: rest =>
    firstSome (fun j =>
      let after := rest.drop (j + 1)
      let n := runLen isNlCr after
      if n = 0 then none
      else
        match sepThenDataD (after.drop n) with
        | some s => some (1 + (j + 1) + n + s)
        | none => none)
      (pipeCandidatesDesc rest)
  | _ => none

/-- `re.finditer` of the table pattern (line 169): leftmost, non-overlapping
matched texts. -/
def findDupTables : Nat → List Char → List (List Char)
  | 0, _ => []
  | _ + 1, [] => []
  | fuel + 1, c :: rest =>
    match matchDupAt (c :: rest) with
    | some len =>
      if len = 0 then findDupTables fuel rest -- unreachable: matches consume ≥ 10
      else (c :: rest).take len :: findDupTables fuel ((c :: rest).drop len)
    | none => findDupTables fuel rest

/-- `re.findall(r'\|\s*([^|]+?)\s*\|', table)` (lines 175-176): the close is
the first pipe after the open, so cells alternate (the close is consumed);
the lazy group flanked by greedy whitespace resolves to the content trimmed
on both sides, except that all-whitespace content yields its last character
(stripped to nothing by the caller).  Nothing between the pipes is no match;
scanning advances one character onto the close. -/
def findCells : Nat → List Char → List (List Char)
  | 0, _ => []
  | _ + 1, [] => []
  | fuel + 1, c :: rest =>
    if c = '|' then
      let x := rest.takeWhile (· ≠ '|')
      match rest.drop x.length with
      | _ :: rest2 =>
        if x.isEmpty then findCells fuel rest
        else if x.all isPyWs then [x.getLastD ' '] :: findCells fuel rest2
        else pyStripL x :: findCells fuel rest2
      | [] => []
    else findCells fuel rest

/-- Line 183-184, `re.sub` of `[^\n]*<cell>[^\n]*\n` with `count=1`: the
leftmost match is exactly the first newline-terminated line containing
`cell`, removed together with its terminator; an unterminated final line
never matches. -/
def removeFirstLineContaining (cell : List Char) : Nat → List Char → List Char
  | 0, s => s
  | fuel + 1, s =>
    let line := s.takeWhile (· ≠ '\n')
    match s.drop line.length with
    | _ :: rest =>
      if isSubL cell line then rest
      else line ++ '\n' :: removeFirstLineContaining cell fuel rest
    | [] => s

/-- `clean_duplicate_table_content` (lines 164-186): tables are found on the
original text; for each stripped cell longer than 10 characters the first
matching line of the progressively cleaned text is removed. -/
def clean_duplicate_table_content (markdown : String) : String :=
  let md := markdown.data
  let tables := findDupTables (md.length + 1) md
  ⟨tables.foldl (fun cleaned tbl =>
    (findCells (tbl.length + 1) tbl).foldl (fun cl cell =>
      let c := pyStripL cell
      if 10 < c.length then removeFirstLineContaining c (cl.length + 1) cl
      else cl) cleaned) md⟩

/-! ## `clean_and_validate_json` (lines 22-162) -/

/-- Python exceptions that reach the blanket `except Exception` handler,
abstracted to their class name. -/
inductive PyErr where
  | typeError

/-- The markdown-bearing field names (lines 68-75). -/
def markdownFields : List String :=
  ["draft_answer_markdown", "revised_answer_markdown", "final_answer_markdown",
   "answer_markdown", "final_answer", "answer"]

/-- Per-field normalization in the success path (lines 79-84): escape
cleanup, then table spacing, then duplicate-table removal. -/
def normalizeMarkdownField (s : String) : String :=
  clean_duplicate_table_content (ensure_table_spacing (cleanMarkdownContent s))

/-- Python `field in parsed` on a decoded JSON value: key membership for
dicts, substring for strings, element equality for lists, `TypeError` for
the non-container types. -/
def pyIn (field : String) (j : JVal) : Except PyErr Bool :=
  match j with
  | .obj kvs => .ok (lookupKey field.data kvs).isSome
  | .str s => .ok (isSubL field.data s)
  | .arr xs =>
    .ok (xs.any (fun v => match v with | .str s => s == field.data | _ => false))
  | _ => .error .typeError

/-- Python `parsed[field]` with a string index: dict lookup; `TypeError` on
strings and lists (string indices must be integers), which is how a true
substring-membership test still ends at the blanket handler. -/
def pyGetItem (field : String) (j : JVal) : Except PyErr JVal :=
  match j with
  | .obj kvs =>
    match lookupKey field.data kvs with
    | some v => .ok v
    | none => .error .typeError
  | _ => .error .typeError

/-- Python `parsed[field] = v` on a dict. -/
def pySetItem (field : String) (v : JVal) (j : JVal) : Except PyErr JVal :=
  match j with
  | .obj kvs => .ok (.obj (insertKV field.data v kvs))
  | _ => .error .typeError

/-- One iteration of the field loop (lines 77-84):
`if field in parsed and isinstance(parsed[field], str)`, then normalize and
store back. -/
def stepField (p : JVal) (field : String) : Except PyErr JVal := do
  let mem ← pyIn field p
  if mem then
    let v ← pyGetItem field p
    match v with
    | .str s => pySetItem field (.str (normalizeMarkdownField ⟨s⟩).data) p
    | _ => pure p
  else pure p

/-- The whole markdown-field loop of the success path. -/
def applyFieldLoop (p : JVal) : Except PyErr JVal :=
  markdownFields.foldlM stepField p

/-- The literal three-backquote fence marker. -/
def backquote : Char := Char.ofNat 96

def fenceMarker : List Char := [backquote, backquote, backquote]

/-- The fence loop (lines 43-50): collect the lines strictly between the
first and second fence markers; `break` at the second. -/
def fenceLoop : List (List Char) → Bool → List (List Char) → List (List Char)
  | [], _, acc => acc.reverse
  | l :: rest, inJson, acc =>
    if fenceMarker.isPrefixOf (pyStripL l) then
      if inJson then acc.reverse else fenceLoop rest true acc
    else if inJson then fenceLoop rest inJson (l :: acc)
    else fenceLoop rest inJson acc

/-- Lines 38-51: when the stripped content starts with a code fence, keep
only the lines between the first two markers, then strip again. -/
def extractFenced (c : List Char) : List Char :=
  pyStripL (joinNl (fenceLoop (splitNl c) false []))

/-- Lines 53-58: slice from the first open brace to the last close brace
when both exist in that order. -/
def sliceBraces (c : List Char) : List Char :=
  match firstIdxOf lbrace c, lastIdxOf rbrace c with
  | some i, some j => if i < j then (c.drop i).take (j - i + 1) else c
  | _, _ => c

/-- Line 62, `re.sub(r',(\s*[\x7d\]])', r'\1', content)`: every comma
followed by optional whitespace and a closing brace or bracket loses the
comma; the scan resumes after the bracket. -/
def removeTrailingCommas : Nat → List Char → List Char
  | 0, l => l
  | _ + 1, [] => []
  | fuel + 1, c :: rest =>
    if c = ',' then
      let ws := rest.takeWhile isPyWs
      match rest.drop ws.length with
      | b :: r2 =>
        if b = rbrace || b = ']' then ws ++ b :: removeTrailingCommas fuel r2
        else c :: removeTrailingCommas fuel rest
      | [] => c :: removeTrailingCommas fuel rest
    else c :: removeTrailingCommas fuel rest

/-- Lines 35-62: strip, fence extraction, brace slicing, trailing-comma
removal — the content handed to the strict parse (and later quoted by the
fallback object). -/
def preprocess (content : String) : String :=
  let c := pyStripL content.data
  let c := if fenceMarker.isPrefixOf c then extractFenced c else c
  let c := sliceBraces c
  ⟨removeTrailingCommas (c.length + 1) c⟩

/-- Lines 102-112: scan counting brace depth; the first close brace bringing
the count back to zero yields position `i + 1`; otherwise `last_valid_pos`
stays `-1` (here `none`).  The count is only tested on close braces, and
braces inside string literals are counted too, as in the source. -/
def braceScan : List Char → Int → Nat → Option Nat
  | [], _, _ => none
  | c :: rest, depth, i =>
    if c = lbrace then braceScan rest (depth + 1) (i + 1)
    else if c = rbrace then
      if depth - 1 = 0 then some (i + 1) else braceScan rest (depth - 1) (i + 1)
    else braceScan rest depth (i + 1)

def braceTruncatePos (l : List Char) : Option Nat :=
  braceScan l 0 0

/-- Lines 100-137, the recovery attempt after a decode failure.  When a
balanced prefix exists the source truncates `content` and re-parses; on a
successful re-parse it then iterates `markdown_fields` — a local bound only
at line 68, after the *outer* parse succeeded — so the reference raises
`UnboundLocalError`, swallowed by the blanket `except` at line 136: the
branch can never return a value and always falls through to the fallback
with the (possibly truncated) content.  The first component records that no
value escapes; the second is the content the fallback quotes. -/
def truncationRecovery (c : String) : Except Unit JVal × String :=
  match braceTruncatePos c.data with
  | some pos =>
    let c' : String := ⟨c.data.take pos⟩
    match jsonLoads c' with
    | .ok _ => (.error (), c')     -- UnboundLocalError at line 119
    | .error _ => (.error (), c')  -- the re-parse itself failed
  | none => (.error (), c)

/-- Lines 140-144: the decode-failure fallback object.  Note it has no
`status` key. -/
def fallbackParseFailed (c : String) : JVal :=
  .obj [("sub_topic".data, .str "Unknown".data),
        ("final_answer".data,
          .str (if c = "" then "No response generated".data else c.data.take 1000)),
        ("error".data, .str "json_parsing_failed".data)]

/-- Lines 151-157: the blanket-exception fallback; `str(e)` abstracted to
the exception's class name. -/
def fallbackGeneric (e : PyErr) : JVal :=
  .obj [("sub_topic".data, .str "Unknown".data),
        ("final_answer".data, .str "Processing error occurred".data),
        ("error".data, .str (match e with | .typeError => "TypeError".data))]

/-- `clean_and_validate_json` (lines 22-162) in its `return_dict = True`
form (the `False` form re-serializes the same value and differs only in
type). -/
def clean_and_validate_json (content : String) : JVal :=
  let c := preprocess content
  match jsonLoads c with
  | .ok parsed =>
    match applyFieldLoop parsed with
    | .ok p => p
    | .error e => fallbackGeneric e
  | .error _ =>
    match truncationRecovery c with
    | (.ok v, _) => v
    | (.error _, c') => fallbackParseFailed c'

/-- The value of the Python local `content` at the moment the decode-failure
fallback is built: preprocessed, then possibly truncated by the recovery. -/
def processedContent (content : String) : String :=
  (truncationRecovery (preprocess content)).2

/-! ## `normalize_result` (response_format.py, lines 68-123) -/

/-- Comma-space joining for `pyStr`. -/
def joinComma : List (List Char) → List Char
  | [] => []
  | [l] => l
  | l :: ls => l ++ ',' :: ' ' :: joinComma ls

/-- Python `str()` of a decoded JSON value as used by the unknown-format
branch (container rendering approximated by `repr` with single-quoted
strings; irrelevant to the claims, which exercise the string branch). -/
def pyStr : Nat → JVal → List Char
  | _, .null => "None".data
  | _, .bool true => "True".data
  | _, .bool false => "False".data
  | _, .num i suf => (toString i).data ++ suf
  | _, .nan => "nan".data
  | _, .inf true => "-inf".data
  | _, .inf false => "inf".data
  | _, .str s => '\'' :: s ++ ['\'']
  | 0, _ => []
  | fuel + 1, .arr xs =>
    '[' :: joinComma (xs.map (pyStr fuel)) ++ [']']
  | fuel + 1, .obj kvs =>
    lbrace :: joinComma (kvs.map (fun kv => '\'' :: kv.1 ++ '\'' :: ':' :: ' ' ::
      pyStr fuel kv.2)) ++ [rbrace]

/-- The dict branch (lines 80-91): project onto the standard keys with the
source's defaults. -/
def normalizeResultDict (kvs : List (List Char × JVal)) : JVal :=
  .obj [("status".data, (lookupKey "status".data kvs).getD (.str "success".data)),
        ("sub_topic".data, (lookupKey "sub_topic".data kvs).getD (.str "".data)),
        ("answer_markdown".data,
          (lookupKey "answer_markdown".data kvs).getD
            ((lookupKey "final_answer".data kvs).getD (.str "".data))),
        ("citations".data, (lookupKey "citations".data kvs).getD (.arr [])),
        ("reviewer_score".data,
          (lookupKey "reviewer_score".data kvs).getD (.str "N/A".data)),
        ("ready_to_publish".data,
          (lookupKey "ready_to_publish".data kvs).getD (.bool false)),
        ("rounds_used".data,
          (lookupKey "rounds_used".data kvs).getD
            ((lookupKey "orchestration_rounds".data kvs).getD (.num 0 []))),
        ("error".data, (lookupKey "error".data kvs).getD .null)]

/-- Lines 99-108: the plain-markdown wrap for a string that is not JSON. -/
def successWrap (s : String) : JVal :=
  .obj [("status".data, .str "success".data),
        ("sub_topic".data, .str "Unknown".data),
        ("answer_markdown".data, .str s.data),
        ("citations".data, .arr []),
        ("reviewer_score".data, .str "N/A".data),
        ("ready_to_publish".data, .bool false),
        ("rounds_used".data, .num 0 []),
        ("error".data, .null)]

/-- Lines 113-123: the unknown-format wrap. -/
def unknownWrap (v : JVal) : JVal :=
  .obj [("status".data, .str "error".data),
        ("sub_topic".data, .str "Unknown".data),
        ("answer_markdown".data, .str (pyStr 1000 v)),
        ("citations".data, .arr []),
        ("reviewer_score".data, .str "N/A".data),
        ("ready_to_publish".data, .bool false),
        ("rounds_used".data, .num 0 []),
        ("error".data, .str "Unknown result format".data)]

mutual

/-- `normalize_result` on a decoded JSON value: dicts go to the dict branch,
strings re-enter the string branch (decoded values have no `to_dict`), and
everything else gets the unknown-format wrap.  Fuel bounds the depth of
string re-parsing; each round strips at least the quotes, so input length
suffices. -/
def normalizeResultVal : Nat → JVal → JVal
  | _, .obj kvs => normalizeResultDict kvs
  | fuel + 1, .str s => normalizeResultStr fuel ⟨s⟩
  | 0, .str s => unknownWrap (.str s) -- unreachable with adequate fuel
  | _, v => unknownWrap v

/-- The string branch (lines 92-108): parse as JSON and recurse on success;
otherwise the plain-markdown wrap. -/
def normalizeResultStr (fuel : Nat) (s : String) : JVal :=
  match jsonLoads s with
  | .ok v => normalizeResultVal fuel v
  | .error _ => successWrap s

end

/-- `normalize_result` (lines 68-123) applied to a string argument, the case
the claims exercise. -/
def normalize_result (s : String) : JVal :=
  normalizeResultStr (s.length + 1) s

/-! ## `GraphRAGMCPPlugin` (graphrag_mcp_plugin.py)

The supervisor's observable state.  Handles are abstract (`Option Unit`):
only presence matters to the contracts.  Awaited shutdown/startup calls can
fail; their outcomes are the behavior/environment parameters.  The
single-threaded cooperative scheduler means a call runs to completion
between suspension points, so methods are state transformers. -/

structure PluginState where
  mcp_session : Option Unit
  mcp_client : Option Unit
  is_connecting : Bool
  graphrag_enabled : Bool
deriving DecidableEq

/-- Whether the two `__aexit__` calls of `cleanup` raise. -/
structure CleanupBehavior where
  sessionExitRaises : Bool
  clientExitRaises : Bool
deriving DecidableEq

/-- An awaited call that may raise. -/
def tryAwait (raises : Bool) : Except Unit Unit :=
  if raises then .error () else .ok ()

/-- `cleanup` (lines 134-161): if a session handle is set, attempt its
`__aexit__` — any exception swallowed and logged — and null the handle in
the `finally`; then the same for the client handle. -/
def cleanup (b : CleanupBehavior) (st : PluginState) : PluginState :=
  let st :=
    match st.mcp_session with
    | some _ =>
      match tryAwait b.sessionExitRaises with
      | .ok _ => { st with mcp_session := none }
      | .error _ => { st with mcp_session := none } -- except: ignored; finally: nulled
    | none => st
  match st.mcp_client with
  | some _ =>
    match tryAwait b.clientExitRaises with
    | .ok _ => { st with mcp_client := none }
    | .error _ => { st with mcp_client := none } -- except: ignored; finally: nulled
  | none => st

/-- Outcomes of the awaited steps of a fresh connection attempt, plus the
health probe on an existing session and the cleanup behavior of the
internal `cleanup` calls. -/
structure ConnEnv where
  probeOk : Bool          -- `list_tools` on an existing session (line 64)
  mcpAvailable : Bool
  venvExists : Bool       -- line 95
  clientEnterOk : Bool    -- `stdio_client.__aenter__` (line 114)
  sessionEnterOk : Bool   -- `ClientSession.__aenter__` (line 116)
  initializeOk : Bool     -- `initialize` (line 117)
  listToolsOk : Bool      -- `list_tools` after connect (line 119)
  cb : CleanupBehavior
deriving DecidableEq

/-- The `try` block of a fresh attempt (lines 86-131).  `_is_connecting` is
set on entry and reset in the `finally` on every exit; handles are assigned
before the awaited calls that can fail, so a failure cleans up whatever was
already set.  Returns (result, state). -/
def attemptConnect (env : ConnEnv) (st : PluginState) : Bool × PluginState :=
  let st := { st with is_connecting := true }
  if ¬ env.venvExists then
    -- RuntimeError before any handle is assigned
    (false, { cleanup env.cb st with is_connecting := false })
  else
    let st := { st with mcp_client := some () }     -- line 113
    if ¬ env.clientEnterOk then
      (false, { cleanup env.cb st with is_connecting := false })
    else
      let st := { st with mcp_session := some () }  -- line 115
      if ¬ env.sessionEnterOk then
        (false, { cleanup env.cb st with is_connecting := false })
      else if ¬ env.initializeOk then
        (false, { cleanup env.cb st with is_connecting := false })
      else if ¬ env.listToolsOk then
        (false, { cleanup env.cb st with is_connecting := false })
      else
        (true, { st with is_connecting := false })

/-- Lines 70-131: the part of `_ensure_mcp_connection` after the reuse
probe — availability gate, lock acquisition, double-checked recheck,
in-flight wait, then at most one fresh attempt.  The third component counts
entered connection attempts. -/
def ensureFresh (env : ConnEnv) (st : PluginState) : Bool × PluginState × Nat :=
  if ¬ env.mcpAvailable ∨ ¬ st.graphrag_enabled then (false, st, 0)
  else
    match st.mcp_session with
    | some _ => (true, st, 0)                        -- another caller connected
    | none =>
      if st.is_connecting then (st.mcp_session.isSome, st, 0) -- bounded wait, recheck
      else
        let (ok, st') := attemptConnect env st
        (ok, st', 1)

/-- `_ensure_mcp_connection` (lines 53-132): reuse a live session when the
probe succeeds; on probe failure clean up and fall through to the fresh
path. -/
def ensure_mcp_connection (env : ConnEnv) (st : PluginState) :
    Bool × PluginState × Nat :=
  match st.mcp_session with
  | some _ =>
    if env.probeOk then (true, st, 0)
    else ensureFresh env (cleanup env.cb st)
  | none => ensureFresh env st

/-! ## Helper lemmas -/

/-- Whatever the shutdown calls do, `cleanup` just nulls both handles. -/
theorem cleanup_nulls (b : CleanupBehavior) (st : PluginState) :
    cleanup b st = { st with mcp_session := none, mcp_client := none } := by
  rcases st with ⟨s, c, ic, ge⟩
  rcases b with ⟨x, y⟩
  cases s <;> cases c <;> cases x <;> cases y <;> rfl

/-- The truncation-recovery branch never produces a value (see
`truncationRecovery`): every path ends in the error component. -/
theorem trunc_always_error (c : String) :
    ∃ c', truncationRecovery c = (Except.error (), c') := by
  unfold truncationRecovery
  cases braceTruncatePos c.data with
  | none => exact ⟨c, rfl⟩
  | some pos =>
    cases h : jsonLoads ⟨c.data.take pos⟩ with
    | ok v => exact ⟨⟨c.data.take pos⟩, by simp [h]⟩
    | error e => exact ⟨⟨c.data.take pos⟩, by simp [h]⟩

/-- Reading `final_answer` off the decode-failure fallback object. -/
theorem getField_fallback_final (c : String) :
    getField (fallbackParseFailed c) "final_answer" =
      some (.str (if c = "" then "No response generated".data
        else c.data.take 1000)) := rfl

/-! ### Idempotence of the escape cleanup

A pass of `replEsc a b` leaves no backslash-`a` pair behind (when `b` is
neither a backslash nor `a`), and later passes with other patterns cannot
create one; a pass over a pair-free list is the identity.  Together these
give idempotence of the three-pass cleanup. -/

theorem hasPair_tail (a x : Char) (xs : List Char)
    (h : hasPair a (x :: xs) = false) : hasPair a xs = false := by
  cases xs with
  | nil => rfl
  | cons y r =>
    simp only [hasPair, Bool.or_eq_false_iff] at h
    exact h.2

theorem hasPair_cons_of (a c : Char) (X : List Char)
    (hX : hasPair a X = false)
    (hhead : ∀ y r, X = y :: r → (c == '\\' && y == a) = false) :
    hasPair a (c :: X) = false := by
  cases X with
  | nil => rfl
  | cons y r =>
    simp only [hasPair, Bool.or_eq_false_iff]
    exact ⟨hhead y r rfl, hX⟩

/-- The head of a replacement pass's output is the replacement character or
the original head. -/
theorem replEsc_head_cases (a b : Char) :
    ∀ (l : List Char) (y : Char) (r : List Char),
      replEsc a b l = y :: r → y = b ∨ ∃ t, l = y :: t
  | [], y, r, h => by simp [replEsc] at h
  | [c], y, r, h => by
    simp only [replEsc] at h
    injection h with h1 _
    exact Or.inr ⟨[], by rw [h1]⟩
  | c :: c2 :: rest, y, r, h => by
    by_cases hc : c = '\\' ∧ c2 = a
    · rw [show replEsc a b (c :: c2 :: rest) = b :: replEsc a b rest from by
        simp only [replEsc, if_pos hc]] at h
      injection h with h1 _
      exact Or.inl h1.symm
    · rw [show replEsc a b (c :: c2 :: rest) = c :: replEsc a b (c2 :: rest) from by
        simp only [replEsc, if_neg hc]] at h
      injection h with h1 _
      exact Or.inr ⟨c2 :: rest, by rw [h1]⟩

/-- A pass over a pair-free list is the identity. -/
theorem replEsc_no_pair (a b : Char) :
    ∀ l : List Char, hasPair a l = false → replEsc a b l = l
  | [], _ => rfl
  | [_], _ => rfl
  | c :: c2 :: rest, h => by
    have h' : (c == '\\' && c2 == a) = false ∧ hasPair a (c2 :: rest) = false := by
      simpa [hasPair, Bool.or_eq_false_iff] using h
    have hna : ¬ (c = '\\' ∧ c2 = a) := by
      rintro ⟨rfl, rfl⟩
      simp at h'
    simp only [replEsc, if_neg hna]
    rw [replEsc_no_pair a b (c2 :: rest) h'.2]

/-- A pass of `replEsc a b` leaves no backslash-`a` pair, provided the
replacement `b` is neither a backslash nor `a` itself. -/
theorem hasPair_replEsc_self (a b : Char)
    (hb1 : (b == '\\') = false) (hb2 : (b == a) = false) :
    ∀ l : List Char, hasPair a (replEsc a b l) = false
  | [] => rfl
  | [c] => by simp [replEsc, hasPair]
  | c :: c2 :: rest => by
    by_cases hc : c = '\\' ∧ c2 = a
    · rw [show replEsc a b (c :: c2 :: rest) = b :: replEsc a b rest from by
        simp only [replEsc, if_pos hc]]
      apply hasPair_cons_of
      · exact hasPair_replEsc_self a b hb1 hb2 rest
      · intro y r _
        simp [hb1]
    · rw [show replEsc a b (c :: c2 :: rest) = c :: replEsc a b (c2 :: rest) from by
        simp only [replEsc, if_neg hc]]
      apply hasPair_cons_of
      · exact hasPair_replEsc_self a b hb1 hb2 (c2 :: rest)
      · intro y r hyr
        rcases replEsc_head_cases a b (c2 :: rest) y r hyr with hy | ⟨t, ht⟩
        · subst hy
          simp [hb2]
        · have hyc : c2 = y := by
            have h1 := ht
            simp only [List.cons.injEq] at h1
            exact h1.1
          subst hyc
          by_cases h1 : c = '\\'
          · have h2 : c2 ≠ a := fun h2 => hc ⟨h1, h2⟩
            simp [h2]
          · simp [h1]

/-- A pass with pattern `a` cannot create a backslash-`a'` pair for another
pattern, provided its replacement is neither a backslash nor `a'`. -/
theorem hasPair_replEsc_other (a a' b : Char)
    (hb1 : (b == '\\') = false) (hb2 : (b == a') = false) :
    ∀ l : List Char, hasPair a' l = false → hasPair a' (replEsc a b l) = false
  | [], _ => rfl
  | [c], _ => by simp [replEsc, hasPair]
  | c :: c2 :: rest, h => by
    have h' : (c == '\\' && c2 == a') = false ∧
        hasPair a' (c2 :: rest) = false := by
      simpa [hasPair, Bool.or_eq_false_iff] using h
    by_cases hc : c = '\\' ∧ c2 = a
    · rw [show replEsc a b (c :: c2 :: rest) = b :: replEsc a b rest from by
        simp only [replEsc, if_pos hc]]
      apply hasPair_cons_of
      · exact hasPair_replEsc_other a a' b hb1 hb2 rest
          (hasPair_tail a' c2 rest h'.2)
      · intro y r _
        simp [hb1]
    · rw [show replEsc a b (c :: c2 :: rest) = c :: replEsc a b (c2 :: rest) from by
        simp only [replEsc, if_neg hc]]
      apply hasPair_cons_of
      · exact hasPair_replEsc_other a a' b hb1 hb2 (c2 :: rest) h'.2
      · intro y r hyr
        rcases replEsc_head_cases a b (c2 :: rest) y r hyr with hy | ⟨t, ht⟩
        · subst hy
          simp [hb2]
        · have hyc : c2 = y := by
            have h1 := ht
            simp only [List.cons.injEq] at h1
            exact h1.1
          rw [← hyc]
          exact h'.1

/-- The three-pass escape cleanup is idempotent on character lists. -/
theorem cleanMarkdownChars_idem (l : List Char) :
    cleanMarkdownChars (cleanMarkdownChars l) = cleanMarkdownChars l := by
  unfold cleanMarkdownChars
  have hn : hasPair 'n'
      (replEsc 'r' '\r' (replEsc 't' '\t' (replEsc 'n' '\n' l))) = false :=
    hasPair_replEsc_other 'r' 'n' '\r' (by decide) (by decide) _
      (hasPair_replEsc_other 't' 'n' '\t' (by decide) (by decide) _
        (hasPair_replEsc_self 'n' '\n' (by decide) (by decide) l))
  have ht : hasPair 't'
      (replEsc 'r' '\r' (replEsc 't' '\t' (replEsc 'n' '\n' l))) = false :=
    hasPair_replEsc_other 'r' 't' '\r' (by decide) (by decide) _
      (hasPair_replEsc_self 't' '\t' (by decide) (by decide) _)
  have hr : hasPair 'r'
      (replEsc 'r' '\r' (replEsc 't' '\t' (replEsc 'n' '\n' l))) = false :=
    hasPair_replEsc_self 'r' '\r' (by decide) (by decide) _
  rw [replEsc_no_pair 'n' '\n' _ hn, replEsc_no_pair 't' '\t' _ ht,
    replEsc_no_pair 'r' '\r' _ hr]

/-! ## Claim theorems -/

/-- C1, counterexample: on the non-JSON input `"not json"` the function
returns the decode-failure fallback, which carries no `status` field at all
— the claimed "valid `status` field" and "`error`-status object" do not
exist on this result. -/
theorem clean_and_validate_json_no_status_field :
    clean_and_validate_json "not json" = fallbackParseFailed "not json" ∧
    hasKey (clean_and_validate_json "not json") "status" = false := ⟨rfl, rfl⟩

/-- C1 (amended): for every input string `clean_and_validate_json` returns a
value (all exception paths are absorbed); the result is either the parsed
object after field normalization (which carries whatever fields the input
had — no `status` field is guaranteed), or the blanket-exception fallback,
or the decode-failure fallback, which carries the processed (not original)
text prefix under `final_answer` together with the `json_parsing_failed`
error tag, and no `status` field. -/
theorem clean_and_validate_json_shapes (content : String) :
    (∃ p, jsonLoads (preprocess content) = .ok p ∧
      applyFieldLoop p = .ok (clean_and_validate_json content)) ∨
    (∃ e, clean_and_validate_json content = fallbackGeneric e) ∨
    clean_and_validate_json content =
      fallbackParseFailed (processedContent content) := by
  cases hj : jsonLoads (preprocess content) with
  | ok p =>
    cases hf : applyFieldLoop p with
    | ok q =>
      left
      have hv : clean_and_validate_json content = q := by
        simp only [clean_and_validate_json, hj, hf]
      exact ⟨p, rfl, by rw [hv]; exact hf⟩
    | error e =>
      right; left
      exact ⟨e, by simp only [clean_and_validate_json, hj, hf]⟩
  | error e =>
    right; right
    obtain ⟨c', hc'⟩ := trunc_always_error (preprocess content)
    have h2 : processedContent content = c' := by
      unfold processedContent; rw [hc']
    rw [h2]
    simp only [clean_and_validate_json, hj, hc']

/-- C3: the spec's truncation recovery — the brace-balanced prefix of
`'\x7b"final_answer": "hi"\x7d\x7d'` parses to the object, but the function
still returns the decode-failure fallback: the recovery block reads the
`markdown_fields` local, which is unbound when the outer parse failed, so
its `UnboundLocalError` sends every recovery down to the fallback. -/
theorem truncation_recovery_unreachable :
    jsonLoads "\x7b\"final_answer\": \"hi\"\x7d" =
      .ok (.obj [("final_answer".data, .str "hi".data)]) ∧
    clean_and_validate_json "\x7b\"final_answer\": \"hi\"\x7d\x7d" =
      fallbackParseFailed "\x7b\"final_answer\": \"hi\"\x7d" := ⟨rfl, rfl⟩

/-- C4, counterexample: for `'prefix \x7b"x": \x7d'` the fallback's
`final_answer` is the brace-sliced content, which is not a prefix of the
original raw input at all, let alone its first 1000 characters. -/
theorem fallback_final_answer_not_original_prefix :
    getField (clean_and_validate_json "prefix \x7b\"x\": \x7d") "final_answer" =
      some (.str "\x7b\"x\": \x7d".data) ∧
    ¬ ("\x7b\"x\": \x7d".data <+: "prefix \x7b\"x\": \x7d".data) :=
  ⟨rfl, by decide⟩

/-- C4 (amended): when the strict parse of the preprocessed content fails,
the fallback's `final_answer` is the first 1000 characters of the
*processed* content (after strip, fence extraction, brace slicing,
trailing-comma removal and possible brace-balance truncation) — or the
placeholder message when that content is empty. -/
theorem fallback_final_answer_processed_prefix (content : String)
    (h : isErr (jsonLoads (preprocess content)) = true) :
    clean_and_validate_json content =
      fallbackParseFailed (processedContent content) ∧
    getField (clean_and_validate_json content) "final_answer" =
      some (.str (if processedContent content = "" then "No response generated".data
        else (processedContent content).data.take 1000)) := by
  have hmain : clean_and_validate_json content =
      fallbackParseFailed (processedContent content) := by
    cases hj : jsonLoads (preprocess content) with
    | ok v => rw [hj] at h; simp [isErr] at h
    | error e =>
      obtain ⟨c', hc'⟩ := trunc_always_error (preprocess content)
      have h2 : processedContent content = c' := by
        unfold processedContent; rw [hc']
      rw [h2]
      simp only [clean_and_validate_json, hj, hc']
  exact ⟨hmain, by rw [hmain]; exact getField_fallback_final _⟩

/-- Witness for C4's amended theorem at the input `"hello world"`. -/
theorem fallback_final_answer_processed_prefix_witness :
    isErr (jsonLoads (preprocess "hello world")) = true ∧
    (clean_and_validate_json "hello world" =
      fallbackParseFailed (processedContent "hello world") ∧
     getField (clean_and_validate_json "hello world") "final_answer" =
      some (.str (if processedContent "hello world" = ""
        then "No response generated".data
        else (processedContent "hello world").data.take 1000))) :=
  ⟨rfl, fallback_final_answer_processed_prefix "hello world" rfl⟩

/-- C6: a restating line before the table is removed (spec's example), but
when no preceding line contains the cell text, the first line containing it
is the table's own data row, which gets deleted — contradicting the source's
own "before the table" comment.  Here the cell `abcdefghijkl` (length 12)
occurs only in the data row, and that row disappears. -/
theorem clean_duplicate_table_content_deletes_table_row :
    clean_duplicate_table_content
      "Intro line.\n|H1|H2|\n|-|-|\n|abcdefghijkl|x|\n" =
      "Intro line.\n|H1|H2|\n|-|-|\n" := rfl

/-- C7: on the spec's own example the separator-row pattern (whose class
contains `\s`, hence the newline, with everything after the header optional)
ends the match right after the first data row's leading pipe; a newline is
inserted inside the table and the line `|1|2|` no longer exists in the
output, so no blank line can follow it. -/
theorem ensure_table_spacing_breaks_table :
    ensure_table_spacing "Results:\n|A|B|\n|-|-|\n|1|2|\nDone" =
      "Results:\n\n|A|B|\n|-|-|\n|\n1\n|2|\n\nDone" ∧
    isSubL "|1|2|".data
      (ensure_table_spacing "Results:\n|A|B|\n|-|-|\n|1|2|\nDone").data = false :=
  ⟨rfl, rfl⟩

/-- C9: the fenced, trailing-comma input is reduced to the clean object
text by the preprocessing (lines between the fence markers, comma before
the close brace removed) and parses to exactly the one-field object. -/
theorem clean_and_validate_json_fence_trailing_comma :
    preprocess "```json\n\x7b\"final_answer\": \"hi\",\x7d\n```" =
      "\x7b\"final_answer\": \"hi\"\x7d" ∧
    clean_and_validate_json "```json\n\x7b\"final_answer\": \"hi\",\x7d\n```" =
      .obj [("final_answer".data, .str "hi".data)] := ⟨rfl, rfl⟩

/-- C10: a string that fails JSON parsing is wrapped as a *success* result:
`status = "success"`, `answer_markdown` the whole input, `sub_topic`
`"Unknown"`, empty `citations`, `error = None`. -/
theorem normalize_result_nonjson_success (s : String)
    (h : isErr (jsonLoads s) = true) :
    normalize_result s = successWrap s ∧
    getField (normalize_result s) "status" = some (.str "success".data) ∧
    getField (normalize_result s) "answer_markdown" = some (.str s.data) ∧
    getField (normalize_result s) "sub_topic" = some (.str "Unknown".data) ∧
    getField (normalize_result s) "citations" = some (.arr []) ∧
    getField (normalize_result s) "error" = some .null := by
  have hmain : normalize_result s = successWrap s := by
    cases hj : jsonLoads s with
    | ok v => rw [hj] at h; simp [isErr] at h
    | error e => simp only [normalize_result, normalizeResultStr, hj]
  refine ⟨hmain, ?_, ?_, ?_, ?_, ?_⟩ <;> rw [hmain] <;> rfl

/-- Witness for C10 at a concrete non-JSON string. -/
theorem normalize_result_nonjson_success_witness :
    isErr (jsonLoads "plain text, not json") = true ∧
    (normalize_result "plain text, not json" = successWrap "plain text, not json" ∧
     getField (normalize_result "plain text, not json") "status" =
       some (.str "success".data) ∧
     getField (normalize_result "plain text, not json") "answer_markdown" =
       some (.str "plain text, not json".data) ∧
     getField (normalize_result "plain text, not json") "sub_topic" =
       some (.str "Unknown".data) ∧
     getField (normalize_result "plain text, not json") "citations" =
       some (.arr []) ∧
     getField (normalize_result "plain text, not json") "error" = some .null) :=
  ⟨rfl, normalize_result_nonjson_success "plain text, not json" rfl⟩

/-- C2: `cleanup` never raises (it is a total state transformer for every
behavior of the underlying shutdown calls), unconditionally nulls both
handles (also when no session exists), and a second call — under any
shutdown behavior — leaves the state exactly as after the first. -/
theorem cleanup_idempotent_nulls (b1 b2 : CleanupBehavior) (st : PluginState) :
    (cleanup b1 st).mcp_session = none ∧
    (cleanup b1 st).mcp_client = none ∧
    cleanup b2 (cleanup b1 st) = cleanup b1 st := by
  simp [cleanup_nulls]

/-- C5: starting from a disconnected supervisor, if any step of the fresh
connection attempt fails (missing venv, transport enter, session enter,
handshake, capability listing), the call returns `false` with both handles
nulled by the cleanup, and exactly one connection attempt is made — no
retry inside the call. -/
theorem ensure_mcp_connection_failure_cleanup_no_retry
    (env : ConnEnv) (st : PluginState)
    (hs : st.mcp_session = none) (hic : st.is_connecting = false)
    (hen : st.graphrag_enabled = true) (hav : env.mcpAvailable = true)
    (hfail : env.venvExists = false ∨ env.clientEnterOk = false ∨
      env.sessionEnterOk = false ∨ env.initializeOk = false ∨
      env.listToolsOk = false) :
    (ensure_mcp_connection env st).1 = false ∧
    (ensure_mcp_connection env st).2.1.mcp_session = none ∧
    (ensure_mcp_connection env st).2.1.mcp_client = none ∧
    (ensure_mcp_connection env st).2.2 = 1 := by
  rcases st with ⟨s, c, ic, ge⟩
  rcases env with ⟨po, av, ve, ce, se, io, lt, cb⟩
  simp only at hs hic hen hav
  subst hs hic hen hav
  cases ve <;> cases ce <;> cases se <;> cases io <;> cases lt <;>
    simp_all [ensure_mcp_connection, ensureFresh, attemptConnect, cleanup_nulls]

/-- Witness for C5: venv missing, everything else healthy. -/
theorem ensure_mcp_connection_failure_cleanup_no_retry_witness :
    ((⟨none, none, false, true⟩ : PluginState).mcp_session = none ∧
     (⟨none, none, false, true⟩ : PluginState).is_connecting = false ∧
     (⟨none, none, false, true⟩ : PluginState).graphrag_enabled = true ∧
     (⟨true, true, false, true, true, true, true, ⟨false, false⟩⟩ :
        ConnEnv).mcpAvailable = true ∧
     (⟨true, true, false, true, true, true, true, ⟨false, false⟩⟩ :
        ConnEnv).venvExists = false) ∧
    ((ensure_mcp_connection
        ⟨true, true, false, true, true, true, true, ⟨false, false⟩⟩
        ⟨none, none, false, true⟩).1 = false ∧
     (ensure_mcp_connection
        ⟨true, true, false, true, true, true, true, ⟨false, false⟩⟩
        ⟨none, none, false, true⟩).2.1.mcp_session = none ∧
     (ensure_mcp_connection
        ⟨true, true, false, true, true, true, true, ⟨false, false⟩⟩
        ⟨none, none, false, true⟩).2.1.mcp_client = none ∧
     (ensure_mcp_connection
        ⟨true, true, false, true, true, true, true, ⟨false, false⟩⟩
        ⟨none, none, false, true⟩).2.2 = 1) :=
  ⟨⟨rfl, rfl, rfl, rfl, rfl⟩,
   ensure_mcp_connection_failure_cleanup_no_retry
     ⟨true, true, false, true, true, true, true, ⟨false, false⟩⟩
     ⟨none, none, false, true⟩ rfl rfl rfl rfl (Or.inl rfl)⟩

/-- C8: literal `\n`, `\t`, `\r` sequences become real newline, tab and
carriage-return characters, and the normalization is idempotent: a second
application is the identity on every string. -/
theorem clean_markdown_escapes_idempotent :
    clean_markdown_escapes "a\\nb\\tc\\rd" = "a\nb\tc\x0dd" ∧
    ∀ s : String, clean_markdown_escapes (clean_markdown_escapes s) =
      clean_markdown_escapes s := by
  refine ⟨rfl, fun s => ?_⟩
  by_cases hs : s = ""
  · subst hs; rfl
  · unfold clean_markdown_escapes cleanMarkdownContent
    rw [if_neg hs]
    by_cases h2 : (⟨cleanMarkdownChars s.data⟩ : String) = ""
    · rw [if_pos h2]
    · rw [if_neg h2]
      exact congrArg String.mk (cleanMarkdownChars_idem s.data)

end DocResearch
